import Mathlib

/-!
Verification of the futures scanning engine (scoring and classification core).

The TypeScript source is shallowly embedded: JavaScript numbers that only
undergo field operations and comparisons are modelled exactly as rationals
(`ℚ`); `Math.sqrt`, which appears only in `standardDeviation` and
`volatilityPercent`, is modelled with `Real.sqrt` (result type `ℝ`).
Division by zero, which in JavaScript yields a non-finite number, follows
Lean's `x / 0 = 0` convention in the total definitions; where a claim is
about that degeneracy itself, a checked-division variant returning `Option`
is used.  Source: `src/app/api/scan/route.ts` and the indicator library
`src/lib/indicators.ts`.
-/

namespace Scan

/-- Model of `Math.sign`: 1 for positive, -1 for negative, 0 for zero. -/
def sign (x : ℚ) : ℚ :=
  if 0 < x then 1 else if x < 0 then -1 else 0

/-- Trade direction, `"Long" | "Short"` in the source. -/
inductive Dir where
  | long
  | short
deriving DecidableEq, Repr

/-- Embedding of the direction ternary in `evaluateSymbol`
(route.ts lines 223-230):
Long if both EMA trends are nonnegative and rsi1h >= 48, else Short if both
are nonpositive and rsi1h <= 52, else Long iff emaTrend1h >= emaTrend4h. -/
def direction (emaTrend1h emaTrend4h rsi1h : ℚ) : Dir :=
  if 0 ≤ emaTrend1h ∧ 0 ≤ emaTrend4h ∧ 48 ≤ rsi1h then .long
  else if emaTrend1h ≤ 0 ∧ emaTrend4h ≤ 0 ∧ rsi1h ≤ 52 then .short
  else if emaTrend4h ≤ emaTrend1h then .long
  else .short

/-- Embedding of the stop multiplier in `evaluateSymbol`
(route.ts lines 261-264): Long uses `max(0.986, 1 - max(vol/150, 0.012))`,
Short uses `min(1.014, 1 + max(vol/150, 0.012))`. -/
def stopMultiplier (d : Dir) (volatility : ℚ) : ℚ :=
  match d with
  | .long => max 0.986 (1 - max (volatility / 150) 0.012)
  | .short => min 1.014 (1 + max (volatility / 150) 0.012)

/-- Stable insertion step for a descending sort keyed by `key`: the new
element passes over strictly greater keys and stops in front of the first
element whose key is less than or equal to its own.  This reproduces the
behaviour of the (stable, per ECMA-262) `Array.prototype.sort` used by the
engine. -/
def insertDesc {α : Type} (key : α → ℚ) (x : α) : List α → List α
  | [] => [x]
  | y :: ys => if key x < key y then y :: insertDesc key x ys else x :: y :: ys

/-- Stable insertion sort, descending by `key`.  An ascending sort is
obtained by negating the key, which preserves stability. -/
def sortDesc {α : Type} (key : α → ℚ) : List α → List α
  | [] => []
  | x :: xs => insertDesc key x (sortDesc key xs)

/-- Model of the engine's output record, reduced to the fields the ranking
funnel reads (`EvaluatedSymbol.compositeScore`; the symbol name keeps
distinct entries distinguishable). -/
structure EvaluatedSym where
  symbol : String
  compositeScore : ℚ
deriving DecidableEq, Repr

/-- Embedding of the ranking funnel of `GET` (route.ts lines 110-113):
evaluated symbols are filtered to composite score ≥ 55 and sorted
descending by composite score with the stable built-in sort. -/
def rankFunnel (l : List EvaluatedSym) : List EvaluatedSym :=
  sortDesc (fun e => e.compositeScore)
    (l.filter (fun e => decide (55 ≤ e.compositeScore)))

/-- The movers view: first five entries of the ranked list
(route.ts line 126). -/
def movers (l : List EvaluatedSym) : List EvaluatedSym :=
  (rankFunnel l).take 5

/-- The strongest view: first three entries of the ranked list
(route.ts line 127). -/
def strongest (l : List EvaluatedSym) : List EvaluatedSym :=
  (rankFunnel l).take 3

/-- Embedding of the evaluation fan-out of `GET` (route.ts lines 104-129):
each shortlisted symbol is evaluated by `eval`, where a `none` result models
both `evaluateSymbol(ticker).catch(() => null)` (line 107) and the explicit
`return null` guards inside `evaluateSymbol`; null results are removed by
`.filter(Boolean)` (line 111) and the survivors go through the ranking
funnel.  `Promise.all` keeps input order, so the fan-out is order-preserving
`filterMap`.  Returns (movers, strongest, all). -/
def scanPass {σ : Type} (eval : σ → Option EvaluatedSym) (shortlist : List σ) :
    List EvaluatedSym × List EvaluatedSym × List EvaluatedSym :=
  let evaluated := rankFunnel (shortlist.filterMap eval)
  (evaluated.take 5, evaluated.take 3, evaluated)

/-- Embedding of the degenerate-input guard of `evaluateSymbol`
(route.ts lines 170-180): the fetched data for a symbol (or `none` for a
fetch failure, via the catch on line 107) passes through the
fewer-than-30-bars check on the two trend candle series before the pure
pipeline `rest` runs. -/
def guardedEval {σ : Type} (fetch : σ → Option (List ℚ × List ℚ))
    (rest : List ℚ × List ℚ → EvaluatedSym) (s : σ) : Option EvaluatedSym :=
  match fetch s with
  | none => none
  | some d => if d.1.length < 30 ∨ d.2.length < 30 then none else some (rest d)

end Scan

namespace Scan

theorem insertDesc_perm {α : Type} (key : α → ℚ) (x : α) (l : List α) :
    List.Perm (insertDesc key x l) (x :: l) := by
  induction l with
  | nil => exact List.Perm.refl _
  | cons y ys ih =>
    simp only [insertDesc]
    split_ifs
    · exact (ih.cons y).trans (List.Perm.swap x y ys)
    · exact List.Perm.refl _

theorem sortDesc_perm {α : Type} (key : α → ℚ) (l : List α) :
    List.Perm (sortDesc key l) l := by
  induction l with
  | nil => exact List.Perm.refl _
  | cons x xs ih => exact (insertDesc_perm key x (sortDesc key xs)).trans (ih.cons x)

theorem insertDesc_sorted {α : Type} (key : α → ℚ) (x : α) (l : List α)
    (h : l.Pairwise (fun a b => key b ≤ key a)) :
    (insertDesc key x l).Pairwise (fun a b => key b ≤ key a) := by
  induction l with
  | nil => simp [insertDesc]
  | cons y ys ih =>
    rcases List.pairwise_cons.mp h with ⟨hy, hys⟩
    simp only [insertDesc]
    split_ifs with hk
    · refine List.pairwise_cons.mpr ⟨?_, ih hys⟩
      intro a ha
      rcases List.mem_cons.mp ((insertDesc_perm key x ys).mem_iff.mp ha) with rfl | ha
      · exact le_of_lt hk
      · exact hy a ha
    · refine List.pairwise_cons.mpr ⟨?_, h⟩
      intro a ha
      rcases List.mem_cons.mp ha with rfl | ha
      · exact le_of_not_lt hk
      · exact le_trans (hy a ha) (le_of_not_lt hk)

theorem sortDesc_sorted {α : Type} (key : α → ℚ) (l : List α) :
    (sortDesc key l).Pairwise (fun a b => key b ≤ key a) := by
  induction l with
  | nil => simp [sortDesc]
  | cons x xs ih => exact insertDesc_sorted key x (sortDesc key xs) ih

theorem filter_insertDesc {α : Type} (key : α → ℚ) (c : ℚ) (x : α) (l : List α) :
    (insertDesc key x l).filter (fun a => decide (key a = c)) =
      if key x = c then x :: l.filter (fun a => decide (key a = c))
      else l.filter (fun a => decide (key a = c)) := by
  induction l with
  | nil =>
    by_cases hx : key x = c <;> simp [insertDesc, List.filter_cons, hx]
  | cons y ys ih =>
    simp only [insertDesc]
    by_cases hxc : key x = c
    · by_cases hk : key x < key y
      · have hy : ¬ key y = c := fun hyc =>
          absurd hk (by rw [hxc, hyc]; exact lt_irrefl c)
        rw [if_pos hk]
        simp [List.filter_cons, hy, ih, hxc]
      · rw [if_neg hk]
        simp [List.filter_cons, hxc]
    · by_cases hk : key x < key y
      · rw [if_pos hk]
        by_cases hy : key y = c <;> simp [List.filter_cons, hy, ih, hxc]
      · rw [if_neg hk]
        simp [List.filter_cons, hxc]

theorem filter_sortDesc {α : Type} (key : α → ℚ) (c : ℚ) (l : List α) :
    (sortDesc key l).filter (fun a => decide (key a = c)) =
      l.filter (fun a => decide (key a = c)) := by
  induction l with
  | nil => rfl
  | cons x xs ih =>
    simp only [sortDesc]
    rw [filter_insertDesc]
    by_cases hx : key x = c <;> simp [List.filter_cons, hx, ih]

/-- Two permuted lists with pairwise-distinct keys have equal descending
sorts: the sort output is sorted and keyed without repetition, so it is
uniquely determined by the underlying multiset. -/
theorem sortDesc_eq_of_perm {α : Type} (key : α → ℚ) {l l' : List α}
    (hperm : List.Perm l l') (hdist : l.Pairwise (fun a b => key a ≠ key b)) :
    sortDesc key l = sortDesc key l' := by
  have hdist' : l'.Pairwise (fun a b => key a ≠ key b) :=
    (hperm.pairwise_iff (fun h => Ne.symm h)).mp hdist
  have hp : List.Perm (sortDesc key l) (sortDesc key l') :=
    ((sortDesc_perm key l).trans hperm).trans (sortDesc_perm key l').symm
  have hstrict : ∀ (m : List α), List.Perm m l →
      m.Pairwise (fun a b => key b ≤ key a) →
      m.Pairwise (fun a b => key b < key a) := by
    intro m hm hsorted
    have hmd : m.Pairwise (fun a b => key a ≠ key b) :=
      (hm.pairwise_iff (fun h => Ne.symm h)).mpr hdist
    exact (hsorted.and hmd).imp (fun h => lt_of_le_of_ne h.1 (Ne.symm h.2))
  haveI : IsAntisymm α (fun a b => key b < key a) :=
    ⟨fun a b h1 h2 => absurd (lt_trans h1 h2) (lt_irrefl _)⟩
  exact List.eq_of_perm_of_sorted hp
    (hstrict _ (sortDesc_perm key l) (sortDesc_sorted key l))
    (hstrict _ ((sortDesc_perm key l').trans hperm.symm) (sortDesc_sorted key l'))

end Scan

/-- C5: the direction classifier returns Long if both trend scores are
non-negative and rsi1h ≥ 48; Short if (failing that) both are non-positive
and rsi1h ≤ 52; otherwise Long exactly when emaTrend1h ≥ emaTrend4h
(tie → Long).  The Long rule wins when both rules hold, since the Long
branch is tested first. -/
theorem direction_spec (e1 e4 r : ℚ) :
    (Scan.direction e1 e4 r = .long ↔
      (0 ≤ e1 ∧ 0 ≤ e4 ∧ 48 ≤ r) ∨
      (¬(0 ≤ e1 ∧ 0 ≤ e4 ∧ 48 ≤ r) ∧ ¬(e1 ≤ 0 ∧ e4 ≤ 0 ∧ r ≤ 52) ∧ e4 ≤ e1)) ∧
    (Scan.direction e1 e4 r = .short ↔
      ¬(0 ≤ e1 ∧ 0 ≤ e4 ∧ 48 ≤ r) ∧
      ((e1 ≤ 0 ∧ e4 ≤ 0 ∧ r ≤ 52) ∨ (¬(e1 ≤ 0 ∧ e4 ≤ 0 ∧ r ≤ 52) ∧ ¬(e4 ≤ e1)))) := by
  unfold Scan.direction
  split_ifs with h1 h2 h3 <;> simp_all

/-- C9: for every direction and volatility ≥ 0, the stop multiplier's
adverse distance |1 − stopMultiplier| equals min(max(vol/150, 0.012), 0.014),
hence lies in [0.012, 0.014]; Long multipliers lie in [0.986, 0.988] and
Short multipliers in [1.012, 1.014]. -/
theorem stopMultiplier_spec (d : Scan.Dir) (v : ℚ) (hv : 0 ≤ v) :
    |1 - Scan.stopMultiplier d v| = min (max (v / 150) 0.012) 0.014 ∧
    0.012 ≤ |1 - Scan.stopMultiplier d v| ∧
    |1 - Scan.stopMultiplier d v| ≤ 0.014 ∧
    (d = .long → 0.986 ≤ Scan.stopMultiplier d v ∧ Scan.stopMultiplier d v ≤ 0.988) ∧
    (d = .short → 1.012 ≤ Scan.stopMultiplier d v ∧ Scan.stopMultiplier d v ≤ 1.014) := by
  have h150 : (0:ℚ) ≤ v / 150 := by positivity
  set m : ℚ := max (v / 150) 0.012 with hm
  have hm12 : (0.012 : ℚ) ≤ m := le_max_right _ _
  have habs : |1 - Scan.stopMultiplier d v| = min m 0.014 := by
    rcases le_total m (0.014 : ℚ) with h | h
    · cases d
      · have hmax : max (0.986 : ℚ) (1 - m) = 1 - m := max_eq_right (by linarith)
        simp only [Scan.stopMultiplier, ← hm, hmax]
        rw [min_eq_left h, show (1:ℚ) - (1 - m) = m by ring, abs_of_nonneg (by linarith)]
      · have hmin : min (1.014 : ℚ) (1 + m) = 1 + m := min_eq_right (by linarith)
        simp only [Scan.stopMultiplier, ← hm, hmin]
        rw [min_eq_left h, show (1:ℚ) - (1 + m) = -m by ring, abs_neg,
          abs_of_nonneg (by linarith)]
    · cases d
      · have hmax : max (0.986 : ℚ) (1 - m) = 0.986 := max_eq_left (by linarith)
        simp only [Scan.stopMultiplier, ← hm, hmax]
        rw [min_eq_right h]
        norm_num
      · have hmin : min (1.014 : ℚ) (1 + m) = 1.014 := min_eq_left (by linarith)
        simp only [Scan.stopMultiplier, ← hm, hmin]
        rw [min_eq_right h]
        norm_num
  have hlow : (0.012 : ℚ) ≤ min m 0.014 := le_min hm12 (by norm_num)
  have hhigh : min m (0.014 : ℚ) ≤ 0.014 := min_le_right _ _
  refine ⟨habs, habs ▸ hlow, habs ▸ hhigh, ?_, ?_⟩
  · rintro rfl
    have h1 : |1 - Scan.stopMultiplier Scan.Dir.long v| ≤ 0.014 := habs ▸ hhigh
    have h2 : (0.012 : ℚ) ≤ |1 - Scan.stopMultiplier Scan.Dir.long v| := habs ▸ hlow
    have h3 : Scan.stopMultiplier Scan.Dir.long v ≤ 1 := by
      simp only [Scan.stopMultiplier, ← hm]
      rcases max_cases (0.986 : ℚ) (1 - m) with ⟨he, _⟩ | ⟨he, _⟩ <;> rw [he] <;> linarith
    rw [abs_of_nonneg (by linarith)] at h1 h2
    constructor <;> linarith
  · rintro rfl
    have h1 : |1 - Scan.stopMultiplier Scan.Dir.short v| ≤ 0.014 := habs ▸ hhigh
    have h2 : (0.012 : ℚ) ≤ |1 - Scan.stopMultiplier Scan.Dir.short v| := habs ▸ hlow
    have h3 : 1 ≤ Scan.stopMultiplier Scan.Dir.short v := by
      simp only [Scan.stopMultiplier, ← hm]
      rcases min_cases (1.014 : ℚ) (1 + m) with ⟨he, _⟩ | ⟨he, _⟩ <;> rw [he] <;> linarith
    rw [abs_of_nonpos (by linarith), neg_sub] at h1 h2
    constructor <;> linarith

/-- Witness for C9 at direction = Long, volatility = 3. -/
theorem stopMultiplier_spec_witness :
    (0:ℚ) ≤ 3 ∧
    (|1 - Scan.stopMultiplier .long 3| = min (max ((3:ℚ) / 150) 0.012) 0.014 ∧
     0.012 ≤ |1 - Scan.stopMultiplier .long 3| ∧
     |1 - Scan.stopMultiplier .long 3| ≤ 0.014 ∧
     (Scan.Dir.long = .long → 0.986 ≤ Scan.stopMultiplier .long 3 ∧ Scan.stopMultiplier .long 3 ≤ 0.988) ∧
     (Scan.Dir.long = .short → 1.012 ≤ Scan.stopMultiplier .long 3 ∧ Scan.stopMultiplier .long 3 ≤ 1.014)) :=
  ⟨by norm_num, stopMultiplier_spec .long 3 (by norm_num)⟩

namespace Scan

/-- Fetch oracle producing a 1h trend series with only 29 bars, used to
exhibit the fewer-than-30-bars drop concretely. -/
def shortFetch : ℕ → Option (List ℚ × List ℚ) :=
  fun _ => some (List.replicate 29 1, List.replicate 30 1)

end Scan

/-- C3: the ranking funnel keeps exactly the evaluated symbols with
composite score ≥ 55, sorts them descending by composite score, stably with
respect to insertion order on ties; movers is the first 5 and strongest the
first 3 of this sorted list, so movers has ≤ 5 and strongest ≤ 3 elements,
every score in either view is ≥ 55, and strongest is a prefix of movers.
An empty filtered set yields empty views rather than an error, as the
funnel is a total function. -/
theorem rankingFunnel_spec (l : List Scan.EvaluatedSym) :
    List.Perm (Scan.rankFunnel l)
      (l.filter (fun e => decide (55 ≤ e.compositeScore))) ∧
    (∀ e, e ∈ Scan.rankFunnel l ↔ e ∈ l ∧ 55 ≤ e.compositeScore) ∧
    (Scan.rankFunnel l).Pairwise (fun a b => b.compositeScore ≤ a.compositeScore) ∧
    (∀ c : ℚ, (Scan.rankFunnel l).filter (fun e => decide (e.compositeScore = c)) =
      (l.filter (fun e => decide (55 ≤ e.compositeScore))).filter
        (fun e => decide (e.compositeScore = c))) ∧
    Scan.movers l = (Scan.rankFunnel l).take 5 ∧
    Scan.strongest l = (Scan.rankFunnel l).take 3 ∧
    (Scan.movers l).length ≤ 5 ∧
    (Scan.strongest l).length ≤ 3 ∧
    (∀ e ∈ Scan.movers l, 55 ≤ e.compositeScore) ∧
    (∀ e ∈ Scan.strongest l, 55 ≤ e.compositeScore) ∧
    ∃ t, Scan.movers l = Scan.strongest l ++ t := by
  have hperm := Scan.sortDesc_perm (fun e : Scan.EvaluatedSym => e.compositeScore)
    (l.filter (fun e => decide (55 ≤ e.compositeScore)))
  have hmem : ∀ e, e ∈ Scan.rankFunnel l ↔ e ∈ l ∧ 55 ≤ e.compositeScore := by
    intro e
    rw [Scan.rankFunnel, (Scan.sortDesc_perm _ _).mem_iff, List.mem_filter]
    simp
  refine ⟨hperm, hmem, Scan.sortDesc_sorted _ _, fun c => Scan.filter_sortDesc _ c _,
    rfl, rfl, ?_, ?_, ?_, ?_, ?_⟩
  · rw [Scan.movers, List.length_take]
    exact min_le_left _ _
  · rw [Scan.strongest, List.length_take]
    exact min_le_left _ _
  · intro e he
    exact ((hmem e).mp (List.take_subset 5 _ he)).2
  · intro e he
    exact ((hmem e).mp (List.take_subset 3 _ he)).2
  · refine ⟨(( Scan.rankFunnel l).take 5).drop 3, ?_⟩
    rw [Scan.movers, Scan.strongest,
      show (Scan.rankFunnel l).take 3 = ((Scan.rankFunnel l).take 5).take 3 by
        rw [List.take_take]; norm_num,
      List.take_append_drop]

/-- C6: a per-symbol failure during one scan pass — the evaluator returning
no record for that symbol, which covers a fetch error or malformed payload
(absorbed by the catch into null) and a trend candle series with fewer than
30 bars (the early `return null` guard) — removes exactly that symbol: the
pass result over the shortlist with the failing symbol equals the pass
result over the shortlist without it, and no error is raised since the pass
is a total function. -/
theorem scanPass_drop_failed {σ : Type} (eval : σ → Option Scan.EvaluatedSym)
    (s : σ) (l₁ l₂ : List σ) (h : eval s = none) :
    Scan.scanPass eval (l₁ ++ s :: l₂) = Scan.scanPass eval (l₁ ++ l₂) := by
  simp [Scan.scanPass, List.filterMap_append, List.filterMap_cons, h]

/-- Witness for C6: a symbol whose 1h series has only 29 bars is dropped by
the guard, and the scan over [it, sibling] equals the scan over [sibling]. -/
theorem scanPass_drop_failed_witness :
    Scan.guardedEval Scan.shortFetch (fun _ => ⟨"AAA", 60⟩) 0 = none ∧
    Scan.scanPass (Scan.guardedEval Scan.shortFetch (fun _ => ⟨"AAA", 60⟩))
        ([] ++ 0 :: [1]) =
      Scan.scanPass (Scan.guardedEval Scan.shortFetch (fun _ => ⟨"AAA", 60⟩))
        ([] ++ [1]) := by
  have h : Scan.guardedEval Scan.shortFetch
      (fun _ => (⟨"AAA", 60⟩ : Scan.EvaluatedSym)) 0 = none := by
    simp [Scan.guardedEval, Scan.shortFetch]
  exact ⟨h, scanPass_drop_failed _ 0 [] [1] h⟩

namespace Scan

/-- Result of `detectBreakout` (route.ts lines 346-361), reduced to the
fields read by the classifier and scorer. -/
structure Breakout where
  isBreakout : Bool
  isBreakdown : Bool
deriving DecidableEq, Repr

/-- Movement-state label, `"Moving Now" | "About To Move" | "Likely in 24H"`
in the source. -/
inductive Movement where
  | movingNow
  | aboutToMove
  | likelyIn24H
deriving DecidableEq, Repr

/-- Indicator bundle passed to `determineMovementStatus` and
`buildCompositeScore` (route.ts lines 363-377 and 423-438), with the two
breakout records reduced to their flags. -/
structure Bundle where
  priceChange : ℚ
  volSpike1h : ℚ
  volSpike15m : ℚ
  emaTrend1h : ℚ
  emaTrend4h : ℚ
  rsi1h : ℚ
  rsi4h : ℚ
  macdHist1h : ℚ
  macdHist4h : ℚ
  breakout : Breakout
  longerBreakout : Breakout
  oiChangePct : ℚ
  fundingRatePct : ℚ
  volatility : ℚ
deriving DecidableEq, Repr

/-- Embedding of `determineMovementStatus` (route.ts lines 363-421). -/
def determineMovementStatus (p : Bundle) : Movement :=
  if (1.6 < p.volSpike1h ∧ 1.4 < p.volSpike15m ∧ 1 < |p.priceChange| ∧
        sign p.macdHist1h = sign p.macdHist4h ∧ 0.01 < |p.emaTrend1h| ∧
        0.01 < |p.emaTrend4h| ∧ 0.5 < |p.oiChangePct|) ∨
      (p.breakout.isBreakout = true ∧ p.longerBreakout.isBreakout = true ∧
        2.5 < p.volatility) then
    .movingNow
  else if ((1.3 < p.volSpike1h ∧ 0.006 < |p.emaTrend1h| ∧
        0.0005 < |p.macdHist1h|) ∨
        (1.2 < p.volSpike15m ∧ 0.3 < |p.oiChangePct|)) ∧
      sign p.emaTrend1h = sign p.emaTrend4h ∧
      sign p.macdHist1h = sign p.macdHist4h ∧
      ((52 < p.rsi1h ∧ 50 < p.rsi4h) ∨ (p.rsi1h < 48 ∧ p.rsi4h < 50)) then
    .aboutToMove
  else
    .likelyIn24H

end Scan

/-- C2: determineMovementStatus evaluates three ordered tiers top-down with
first match winning.  It returns Moving Now iff the strong-momentum
conjunction holds (volSpike1h > 1.6, volSpike15m > 1.4, |24h change| > 1,
MACD-histogram signs agree, both |EMA trends| > 0.01, |OI delta| > 0.5) or
both breakout flags are set with volatility > 2.5; failing that, About To
Move iff aligned momentum ((volSpike1h > 1.3 and |emaTrend1h| > 0.006 and
|macdHist1h| > 0.0005) or (volSpike15m > 1.2 and |OI delta| > 0.3)) holds
together with EMA-trend sign agreement, MACD sign agreement and RSI bias
agreement; otherwise Likely in 24H. -/
theorem determineMovementStatus_spec (p : Scan.Bundle) :
    (Scan.determineMovementStatus p = .movingNow ↔
      (1.6 < p.volSpike1h ∧ 1.4 < p.volSpike15m ∧ 1 < |p.priceChange| ∧
        Scan.sign p.macdHist1h = Scan.sign p.macdHist4h ∧
        0.01 < |p.emaTrend1h| ∧ 0.01 < |p.emaTrend4h| ∧ 0.5 < |p.oiChangePct|) ∨
      (p.breakout.isBreakout = true ∧ p.longerBreakout.isBreakout = true ∧
        2.5 < p.volatility)) ∧
    (Scan.determineMovementStatus p = .aboutToMove ↔
      ¬((1.6 < p.volSpike1h ∧ 1.4 < p.volSpike15m ∧ 1 < |p.priceChange| ∧
          Scan.sign p.macdHist1h = Scan.sign p.macdHist4h ∧
          0.01 < |p.emaTrend1h| ∧ 0.01 < |p.emaTrend4h| ∧ 0.5 < |p.oiChangePct|) ∨
        (p.breakout.isBreakout = true ∧ p.longerBreakout.isBreakout = true ∧
          2.5 < p.volatility)) ∧
      (((1.3 < p.volSpike1h ∧ 0.006 < |p.emaTrend1h| ∧ 0.0005 < |p.macdHist1h|) ∨
         (1.2 < p.volSpike15m ∧ 0.3 < |p.oiChangePct|)) ∧
       Scan.sign p.emaTrend1h = Scan.sign p.emaTrend4h ∧
       Scan.sign p.macdHist1h = Scan.sign p.macdHist4h ∧
       ((52 < p.rsi1h ∧ 50 < p.rsi4h) ∨ (p.rsi1h < 48 ∧ p.rsi4h < 50)))) ∧
    (Scan.determineMovementStatus p = .likelyIn24H ↔
      ¬((1.6 < p.volSpike1h ∧ 1.4 < p.volSpike15m ∧ 1 < |p.priceChange| ∧
          Scan.sign p.macdHist1h = Scan.sign p.macdHist4h ∧
          0.01 < |p.emaTrend1h| ∧ 0.01 < |p.emaTrend4h| ∧ 0.5 < |p.oiChangePct|) ∨
        (p.breakout.isBreakout = true ∧ p.longerBreakout.isBreakout = true ∧
          2.5 < p.volatility)) ∧
      ¬(((1.3 < p.volSpike1h ∧ 0.006 < |p.emaTrend1h| ∧ 0.0005 < |p.macdHist1h|) ∨
         (1.2 < p.volSpike15m ∧ 0.3 < |p.oiChangePct|)) ∧
       Scan.sign p.emaTrend1h = Scan.sign p.emaTrend4h ∧
       Scan.sign p.macdHist1h = Scan.sign p.macdHist4h ∧
       ((52 < p.rsi1h ∧ 50 < p.rsi4h) ∨ (p.rsi1h < 48 ∧ p.rsi4h < 50)))) := by
  unfold Scan.determineMovementStatus
  split_ifs with h1 h2 <;> simp_all

namespace Scan

/-- Embedding of `buildCompositeScore` (route.ts lines 423-468).  The
final `Number.isFinite(composite) ? composite : 0` guard is an IEEE-754
artifact: over the exact rationals of this embedding every value is finite,
so the guard never fires and is omitted. -/
def buildCompositeScore (p : Bundle) : ℚ :=
  let trendAlignment : ℚ := if sign p.emaTrend1h = sign p.emaTrend4h then 1 else 0
  let macdAlignment : ℚ := if sign p.macdHist1h = sign p.macdHist4h then 1 else 0
  let rsiAlignment : ℚ :=
    if (55 < p.rsi1h ∧ 52 < p.rsi4h) ∨ (p.rsi1h < 45 ∧ p.rsi4h < 48) then 1 else 0
  let breakFactor : ℚ :=
    (if p.breakout.isBreakout then 1 else 0) +
      (if p.longerBreakout.isBreakout then 0.8 else 0)
  let volScore := min (p.volSpike1h * 15) 18 + min (p.volSpike15m * 12) 15
  let trendScore := min (|p.emaTrend1h| * 110) 18 + min (|p.emaTrend4h| * 90) 16
  let macdScore := min (|p.macdHist1h| * 70000) 12 + min (|p.macdHist4h| * 40000) 10
  let rsiScore : ℚ :=
    if (55 < p.rsi1h ∧ 52 < p.rsi4h) ∨ (p.rsi1h < 45 ∧ p.rsi4h < 48) then 10 else 4
  let oiScore := min (|p.oiChangePct| * 4) 12
  let fundingPenalty := max (|p.fundingRatePct| - 0.03) 0 * 120
  let volatilityScore := min (p.volatility * 4) 15
  let base := volScore + trendScore + macdScore + rsiScore + oiScore + volatilityScore
  let alignmentBonus := (trendAlignment + macdAlignment + rsiAlignment) * 6
  let breakoutBonus := breakFactor * 8
  base + alignmentBonus + breakoutBonus - fundingPenalty

/-- A bundle with every numeric field zero, no breakout flags, and funding
rate percentage 1: here the funding penalty (116.4) dominates the other
terms (28), so the composite score is negative. -/
def penaltyBundle : Bundle :=
  { priceChange := 0, volSpike1h := 0, volSpike15m := 0, emaTrend1h := 0,
    emaTrend4h := 0, rsi1h := 0, rsi4h := 0, macdHist1h := 0, macdHist4h := 0,
    breakout := ⟨false, false⟩, longerBreakout := ⟨false, false⟩,
    oiChangePct := 0, fundingRatePct := 1, volatility := 0 }

end Scan

/-- C1 counterexample: the claim that buildCompositeScore returns a
non-negative number for every finite input is false — with all indicator
fields zero and a funding-rate percentage of 1, the finite composite score
is -442/5 = -88.4 < 0. -/
theorem buildCompositeScore_nonneg_counterexample :
    Scan.buildCompositeScore Scan.penaltyBundle < 0 ∧
    Scan.buildCompositeScore Scan.penaltyBundle = -442 / 5 := by
  constructor <;> norm_num [Scan.buildCompositeScore, Scan.penaltyBundle, Scan.sign]

/-- C1 amended: buildCompositeScore is the sum of the capped volume-spike,
EMA-trend, MACD-histogram, RSI-alignment, open-interest and volatility
terms plus the alignment and breakout bonuses minus the funding-rate
penalty max(|funding| − 0.03, 0)·120; it need not be non-negative in
general, but is non-negative (indeed at least 4) whenever the volume-spike
ratios and the volatility are non-negative and |funding rate| ≤ 0.03 —
which holds for every bundle the pipeline builds from real market data.
The non-finite-collapse clause concerns IEEE-754 overflow only; over the
exact rationals of the embedding every composite is finite. -/
theorem buildCompositeScore_nonneg (p : Scan.Bundle)
    (h1 : 0 ≤ p.volSpike1h) (h15 : 0 ≤ p.volSpike15m)
    (hv : 0 ≤ p.volatility) (hf : |p.fundingRatePct| ≤ 0.03) :
    4 ≤ Scan.buildCompositeScore p ∧ 0 ≤ Scan.buildCompositeScore p := by
  have key : 4 ≤ Scan.buildCompositeScore p := by
    unfold Scan.buildCompositeScore
    have e1 : (0:ℚ) ≤ min (p.volSpike1h * 15) 18 :=
      le_min (by positivity) (by norm_num)
    have e2 : (0:ℚ) ≤ min (p.volSpike15m * 12) 15 :=
      le_min (by positivity) (by norm_num)
    have e3 : (0:ℚ) ≤ min (|p.emaTrend1h| * 110) 18 :=
      le_min (by positivity) (by norm_num)
    have e4 : (0:ℚ) ≤ min (|p.emaTrend4h| * 90) 16 :=
      le_min (by positivity) (by norm_num)
    have e5 : (0:ℚ) ≤ min (|p.macdHist1h| * 70000) 12 :=
      le_min (by positivity) (by norm_num)
    have e6 : (0:ℚ) ≤ min (|p.macdHist4h| * 40000) 10 :=
      le_min (by positivity) (by norm_num)
    have e7 : (0:ℚ) ≤ min (|p.oiChangePct| * 4) 12 :=
      le_min (by positivity) (by norm_num)
    have e8 : (0:ℚ) ≤ min (p.volatility * 4) 15 :=
      le_min (by positivity) (by norm_num)
    have epen : max (|p.fundingRatePct| - 0.03) 0 * 120 = 0 := by
      rw [max_eq_right (by linarith)]
      ring
    rw [epen]
    have ersi : (4:ℚ) ≤
        if (55 < p.rsi1h ∧ 52 < p.rsi4h) ∨ (p.rsi1h < 45 ∧ p.rsi4h < 48)
        then (10:ℚ) else 4 := by
      split_ifs <;> norm_num
    have ea1 : (0:ℚ) ≤ if Scan.sign p.emaTrend1h = Scan.sign p.emaTrend4h
        then (1:ℚ) else 0 := by split_ifs <;> norm_num
    have ea2 : (0:ℚ) ≤ if Scan.sign p.macdHist1h = Scan.sign p.macdHist4h
        then (1:ℚ) else 0 := by split_ifs <;> norm_num
    have ea3 : (0:ℚ) ≤
        if (55 < p.rsi1h ∧ 52 < p.rsi4h) ∨ (p.rsi1h < 45 ∧ p.rsi4h < 48)
        then (1:ℚ) else 0 := by split_ifs <;> norm_num
    have eb1 : (0:ℚ) ≤ if p.breakout.isBreakout then (1:ℚ) else 0 := by
      split_ifs <;> norm_num
    have eb2 : (0:ℚ) ≤ if p.longerBreakout.isBreakout then (0.8:ℚ) else 0 := by
      split_ifs <;> norm_num
    have hbonus : (0:ℚ) ≤
        ((if Scan.sign p.emaTrend1h = Scan.sign p.emaTrend4h then (1:ℚ) else 0) +
          (if Scan.sign p.macdHist1h = Scan.sign p.macdHist4h then (1:ℚ) else 0) +
          (if (55 < p.rsi1h ∧ 52 < p.rsi4h) ∨ (p.rsi1h < 45 ∧ p.rsi4h < 48)
            then (1:ℚ) else 0)) * 6 := by positivity
    have hbreak : (0:ℚ) ≤
        ((if p.breakout.isBreakout then (1:ℚ) else 0) +
          (if p.longerBreakout.isBreakout then (0.8:ℚ) else 0)) * 8 := by positivity
    linarith
  exact ⟨key, le_trans (by norm_num) key⟩

/-- Witness for the amended C1 at the all-neutral bundle (every field zero,
funding rate zero): the hypotheses hold and the score is at least 4. -/
theorem buildCompositeScore_nonneg_witness :
    ((0:ℚ) ≤ (0:ℚ) ∧ |(0:ℚ)| ≤ 0.03) ∧
    4 ≤ Scan.buildCompositeScore
        { priceChange := 0, volSpike1h := 0, volSpike15m := 0, emaTrend1h := 0,
          emaTrend4h := 0, rsi1h := 0, rsi4h := 0, macdHist1h := 0,
          macdHist4h := 0, breakout := ⟨false, false⟩,
          longerBreakout := ⟨false, false⟩, oiChangePct := 0,
          fundingRatePct := 0, volatility := 0 } ∧
    0 ≤ Scan.buildCompositeScore
        { priceChange := 0, volSpike1h := 0, volSpike15m := 0, emaTrend1h := 0,
          emaTrend4h := 0, rsi1h := 0, rsi4h := 0, macdHist1h := 0,
          macdHist4h := 0, breakout := ⟨false, false⟩,
          longerBreakout := ⟨false, false⟩, oiChangePct := 0,
          fundingRatePct := 0, volatility := 0 } :=
  ⟨⟨le_refl 0, by norm_num⟩,
    buildCompositeScore_nonneg _ (by norm_num) (by norm_num) (by norm_num)
      (by norm_num)⟩

namespace Scan

/-- A point of the open-interest history (`OpenInterestPoint` in
`src/lib/binance.ts`): a timestamp and a total open interest, both decoded
to numbers by the engine. -/
structure OIPoint where
  timestamp : ℚ
  sumOpenInterest : ℚ
deriving DecidableEq, Repr

/-- The ascending-by-timestamp sort `[...points].sort((a, b) =>
a.timestamp - b.timestamp)` (route.ts line 339), obtained from the stable
descending sort by negating the key. -/
def sortByTime (points : List OIPoint) : List OIPoint :=
  sortDesc (fun p => -p.timestamp) points

/-- Embedding of `calculateOpenInterestDelta` (route.ts lines 337-344). -/
def calculateOpenInterestDelta (points : List OIPoint) : ℚ :=
  if points.length < 2 then 0
  else
    let sorted := sortByTime points
    let latest := (sorted.getD (sorted.length - 1) ⟨0, 0⟩).sumOpenInterest
    let prev := (sorted.getD (sorted.length - 2) ⟨0, 0⟩).sumOpenInterest
    if prev = 0 then 0 else (latest - prev) / prev * 100

theorem insertDesc_of_not_lt {α : Type} (key : α → ℚ) (x : α) (l : List α)
    (h : ∀ y ∈ l, ¬ key x < key y) : insertDesc key x l = x :: l := by
  cases l with
  | nil => rfl
  | cons y ys => simp [insertDesc, h y (List.mem_cons_self y ys)]

theorem sortDesc_of_sorted {α : Type} (key : α → ℚ) (l : List α)
    (h : l.Pairwise (fun a b => key b < key a)) : sortDesc key l = l := by
  induction l with
  | nil => rfl
  | cons x xs ih =>
    rcases List.pairwise_cons.mp h with ⟨hx, hxs⟩
    simp only [sortDesc, ih hxs]
    exact insertDesc_of_not_lt key x xs (fun y hy => not_lt_of_gt (hx y hy))

theorem sortByTime_of_sorted (l : List OIPoint)
    (h : l.Pairwise (fun p q => p.timestamp < q.timestamp)) : sortByTime l = l :=
  sortDesc_of_sorted _ l (h.imp (fun hpq => by simpa using hpq))

end Scan

/-- C7: calculateOpenInterestDelta returns 0 on histories with fewer than
2 points; on a history already sorted ascending by timestamp it returns
100·(latest − previous)/previous over the two most recent points, or 0 when
the second-latest open interest is 0; and because it sorts its input by
timestamp, for histories with pairwise-distinct timestamps the result is
invariant under every permutation of the input list. -/
theorem calculateOpenInterestDelta_spec :
    (∀ pts : List Scan.OIPoint, pts.length < 2 →
      Scan.calculateOpenInterestDelta pts = 0) ∧
    (∀ (l : List Scan.OIPoint) (a b : Scan.OIPoint),
      (l ++ [a, b]).Pairwise (fun p q => p.timestamp < q.timestamp) →
      Scan.calculateOpenInterestDelta (l ++ [a, b]) =
        if a.sumOpenInterest = 0 then 0
        else (b.sumOpenInterest - a.sumOpenInterest) / a.sumOpenInterest * 100) ∧
    (∀ (l l' : List Scan.OIPoint), List.Perm l l' →
      l.Pairwise (fun p q => p.timestamp ≠ q.timestamp) →
      Scan.calculateOpenInterestDelta l = Scan.calculateOpenInterestDelta l') := by
  refine ⟨?_, ?_, ?_⟩
  · intro pts h
    simp [Scan.calculateOpenInterestDelta, h]
  · intro l a b hsorted
    have hlen : (l ++ [a, b]).length = l.length + 2 := by simp
    have hnot : ¬ (l ++ [a, b]).length < 2 := by omega
    have hsort : Scan.sortByTime (l ++ [a, b]) = l ++ [a, b] :=
      Scan.sortByTime_of_sorted _ hsorted
    simp only [Scan.calculateOpenInterestDelta, if_neg hnot, hsort, hlen]
    have hb : (l ++ [a, b]).getD (l.length + 2 - 1) ⟨0, 0⟩ = b := by
      rw [List.getD_append_right l [a, b] ⟨0, 0⟩ _ (by omega)]
      have : l.length + 2 - 1 - l.length = 1 := by omega
      rw [this]
      rfl
    have ha : (l ++ [a, b]).getD (l.length + 2 - 2) ⟨0, 0⟩ = a := by
      rw [List.getD_append_right l [a, b] ⟨0, 0⟩ _ (by omega)]
      have : l.length + 2 - 2 - l.length = 0 := by omega
      rw [this]
      rfl
    rw [hb, ha, if_neg (show ¬ l.length + 2 < 2 by omega)]
  · intro l l' hperm hdist
    have hlen : l.length = l'.length := hperm.length_eq
    by_cases hshort : l.length < 2
    · have hshort' : l'.length < 2 := by omega
      simp [Scan.calculateOpenInterestDelta, hshort, hshort']
    · have hdist' : l.Pairwise
          (fun p q : Scan.OIPoint => -p.timestamp ≠ -q.timestamp) :=
        hdist.imp (fun h => by simpa using h)
      have hsort : Scan.sortByTime l = Scan.sortByTime l' :=
        Scan.sortDesc_eq_of_perm _ hperm hdist'
      have hshort' : ¬ l'.length < 2 := by omega
      simp only [Scan.calculateOpenInterestDelta, if_neg hshort, if_neg hshort',
        hsort]

/-- Witness for C7: the empty history yields 0; the sorted two-point
history [(t=1, oi=4), (t=2, oi=5)] yields 25; and swapping the two points
leaves the result unchanged. -/
theorem calculateOpenInterestDelta_spec_witness :
    (([] : List Scan.OIPoint).length < 2 ∧
      Scan.calculateOpenInterestDelta [] = 0) ∧
    (([] ++ [(⟨1, 4⟩ : Scan.OIPoint), ⟨2, 5⟩]).Pairwise
        (fun p q : Scan.OIPoint => p.timestamp < q.timestamp) ∧
      Scan.calculateOpenInterestDelta ([] ++ [(⟨1, 4⟩ : Scan.OIPoint), ⟨2, 5⟩]) =
        if (Scan.OIPoint.mk 1 4).sumOpenInterest = 0 then 0
        else ((Scan.OIPoint.mk 2 5).sumOpenInterest -
            (Scan.OIPoint.mk 1 4).sumOpenInterest) /
          (Scan.OIPoint.mk 1 4).sumOpenInterest * 100) ∧
    (List.Perm [(⟨1, 4⟩ : Scan.OIPoint), ⟨2, 5⟩] [⟨2, 5⟩, ⟨1, 4⟩] ∧
      ([(⟨1, 4⟩ : Scan.OIPoint), ⟨2, 5⟩]).Pairwise
        (fun p q : Scan.OIPoint => p.timestamp ≠ q.timestamp) ∧
      Scan.calculateOpenInterestDelta [(⟨1, 4⟩ : Scan.OIPoint), ⟨2, 5⟩] =
        Scan.calculateOpenInterestDelta [⟨2, 5⟩, ⟨1, 4⟩]) := by
  have hp : List.Perm [(⟨1, 4⟩ : Scan.OIPoint), ⟨2, 5⟩] [⟨2, 5⟩, ⟨1, 4⟩] :=
    List.Perm.swap _ _ _
  have hd : ([(⟨1, 4⟩ : Scan.OIPoint), ⟨2, 5⟩]).Pairwise
      (fun p q : Scan.OIPoint => p.timestamp ≠ q.timestamp) := by
    norm_num [List.pairwise_cons]
  have hs : (([] : List Scan.OIPoint) ++ [(⟨1, 4⟩ : Scan.OIPoint), ⟨2, 5⟩]).Pairwise
      (fun p q : Scan.OIPoint => p.timestamp < q.timestamp) := by
    norm_num [List.pairwise_cons]
  exact ⟨⟨by norm_num, calculateOpenInterestDelta_spec.1 [] (by norm_num)⟩,
    ⟨hs, calculateOpenInterestDelta_spec.2.1 [] _ _ hs⟩,
    ⟨hp, hd, calculateOpenInterestDelta_spec.2.2 _ _ hp hd⟩⟩

namespace Scan

/-- Consecutive deltas of a series: entry i is values[i+1] − values[i]. -/
def deltas (values : List ℚ) : List ℚ :=
  values.tail.zipWith (fun a b => a - b) values

/-- Accumulation of the initial gains/losses over the first period deltas
(indicators.ts lines 17-23): nonnegative deltas add to gains, negative
deltas subtract from (i.e. add their magnitude to) losses. -/
def initGL (ds : List ℚ) : ℚ × ℚ :=
  ds.foldl (fun gl d => if 0 ≤ d then (gl.1 + d, gl.2) else (gl.1, gl.2 - d)) (0, 0)

/-- One step of Wilder's smoothing (indicators.ts lines 28-37). -/
def wilderStep (period : ℚ) (gl : ℚ × ℚ) (d : ℚ) : ℚ × ℚ :=
  if 0 ≤ d then
    ((gl.1 * (period - 1) + d) / period, gl.2 * (period - 1) / period)
  else
    (gl.1 * (period - 1) / period, (gl.2 * (period - 1) - d) / period)

/-- The final (avgGain, avgLoss) pair computed by `rsi`: the first period
deltas are averaged, then Wilder smoothing is folded over the rest. -/
def rsiAvgs (values : List ℚ) (period : ℕ) : ℚ × ℚ :=
  let ds := deltas values
  let init := initGL (ds.take period)
  (ds.drop period).foldl (wilderStep period)
    (init.1 / period, init.2 / period)

/-- Embedding of `rsi` (indicators.ts lines 15-41); the source default for
period is 14. -/
def rsi (values : List ℚ) (period : ℕ) : ℚ :=
  if values.length ≤ period then 50
  else
    let avgs := rsiAvgs values period
    if avgs.2 = 0 then 80
    else 100 - 100 / (1 + avgs.1 / avgs.2)

theorem initGL_step_nonneg :
    ∀ (ds : List ℚ) (g l : ℚ), 0 ≤ g → 0 ≤ l →
      0 ≤ (ds.foldl
          (fun gl d => if 0 ≤ d then (gl.1 + d, gl.2) else (gl.1, gl.2 - d))
          (g, l)).1 ∧
      0 ≤ (ds.foldl
          (fun gl d => if 0 ≤ d then (gl.1 + d, gl.2) else (gl.1, gl.2 - d))
          (g, l)).2
  | [], g, l, hg, hl => ⟨hg, hl⟩
  | d :: ds, g, l, hg, hl => by
    by_cases hd : 0 ≤ d
    · simpa [List.foldl_cons, hd] using
        initGL_step_nonneg ds (g + d) l (by linarith) hl
    · simpa [List.foldl_cons, hd] using
        initGL_step_nonneg ds g (l - d) hg (by linarith)

theorem initGL_nonneg (ds : List ℚ) : 0 ≤ (initGL ds).1 ∧ 0 ≤ (initGL ds).2 :=
  initGL_step_nonneg ds 0 0 le_rfl le_rfl

theorem wilder_foldl_nonneg (p : ℚ) (hp : 1 ≤ p) :
    ∀ (ds : List ℚ) (g l : ℚ), 0 ≤ g → 0 ≤ l →
      0 ≤ (ds.foldl (wilderStep p) (g, l)).1 ∧
      0 ≤ (ds.foldl (wilderStep p) (g, l)).2
  | [], g, l, hg, hl => ⟨hg, hl⟩
  | d :: ds, g, l, hg, hl => by
    have hp0 : (0:ℚ) < p := by linarith
    have hp1 : (0:ℚ) ≤ p - 1 := by linarith
    by_cases hd : 0 ≤ d
    · simpa [List.foldl_cons, wilderStep, hd] using
        wilder_foldl_nonneg p hp ds ((g * (p - 1) + d) / p) (l * (p - 1) / p)
          (div_nonneg (by positivity) (le_of_lt hp0))
          (div_nonneg (by positivity) (le_of_lt hp0))
    · have hd' : (0:ℚ) ≤ -d := by linarith
      simpa [List.foldl_cons, wilderStep, hd] using
        wilder_foldl_nonneg p hp ds (g * (p - 1) / p) ((l * (p - 1) - d) / p)
          (div_nonneg (by positivity) (le_of_lt hp0))
          (div_nonneg (by nlinarith) (le_of_lt hp0))

theorem rsiAvgs_nonneg (values : List ℚ) (period : ℕ) (hp : 1 ≤ period) :
    0 ≤ (rsiAvgs values period).1 ∧ 0 ≤ (rsiAvgs values period).2 := by
  have hpq : (1:ℚ) ≤ (period : ℚ) := by exact_mod_cast hp
  have hinit := initGL_nonneg ((deltas values).take period)
  unfold rsiAvgs
  exact wilder_foldl_nonneg (period : ℚ) hpq _ _ _
    (div_nonneg hinit.1 (by linarith)) (div_nonneg hinit.2 (by linarith))

end Scan

/-- C4 counterexample: on the strictly decreasing 16-value series
15, 14, ..., 0 with period 14, every delta is a loss, the final smoothed
average gain is 0, and rsi returns exactly 0 — outside the open interval
(0,100) that the claim asserts for this case. -/
theorem rsi_open_interval_counterexample :
    Scan.rsi [15, 14, 13, 12, 11, 10, 9, 8, 7, 6, 5, 4, 3, 2, 1, 0] 14 = 0 ∧
    (Scan.rsiAvgs [15, 14, 13, 12, 11, 10, 9, 8, 7, 6, 5, 4, 3, 2, 1, 0] 14).2 ≠ 0 := by
  constructor <;>
    norm_num [Scan.rsi, Scan.rsiAvgs, Scan.deltas, Scan.initGL, Scan.wilderStep]

/-- C4 amended: for period ≥ 1, rsi returns the neutral 50 whenever
values.length ≤ period; when the final Wilder-smoothed average loss is
exactly 0 it returns 80; in every other case the result lies in the
half-open interval [0, 100) — it equals 0 when the final average gain is 0,
so the interval cannot be open on the left — and in all cases rsi never
returns a value outside [0, 100]. -/
theorem rsi_spec (values : List ℚ) (period : ℕ) (hp : 1 ≤ period) :
    (values.length ≤ period → Scan.rsi values period = 50) ∧
    (period < values.length → (Scan.rsiAvgs values period).2 = 0 →
      Scan.rsi values period = 80) ∧
    (period < values.length → (Scan.rsiAvgs values period).2 ≠ 0 →
      0 ≤ Scan.rsi values period ∧ Scan.rsi values period < 100) ∧
    (0 ≤ Scan.rsi values period ∧ Scan.rsi values period ≤ 100) := by
  rcases Scan.rsiAvgs_nonneg values period hp with ⟨hg, hl⟩
  have hmain : period < values.length → (Scan.rsiAvgs values period).2 ≠ 0 →
      0 ≤ Scan.rsi values period ∧ Scan.rsi values period < 100 := by
    intro hlen hne
    have hlpos : 0 < (Scan.rsiAvgs values period).2 := lt_of_le_of_ne hl (Ne.symm hne)
    have hrs : 0 ≤ (Scan.rsiAvgs values period).1 / (Scan.rsiAvgs values period).2 :=
      div_nonneg hg (le_of_lt hlpos)
    have hone : (1:ℚ) ≤ 1 + (Scan.rsiAvgs values period).1 / (Scan.rsiAvgs values period).2 := by
      linarith
    have hdivpos : 0 < 100 / (1 + (Scan.rsiAvgs values period).1 / (Scan.rsiAvgs values period).2) :=
      div_pos (by norm_num) (by linarith)
    have hdivle : 100 / (1 + (Scan.rsiAvgs values period).1 / (Scan.rsiAvgs values period).2) ≤ 100 :=
      div_le_self (by norm_num) hone
    rw [Scan.rsi, if_neg (not_le.mpr hlen), if_neg hne]
    constructor <;> linarith
  refine ⟨?_, ?_, hmain, ?_⟩
  · intro h
    simp [Scan.rsi, h]
  · intro hlen h
    rw [Scan.rsi, if_neg (not_le.mpr hlen), if_pos h]
  · by_cases hlen : values.length ≤ period
    · rw [Scan.rsi, if_pos hlen]
      norm_num
    · by_cases hz : (Scan.rsiAvgs values period).2 = 0
      · rw [Scan.rsi, if_neg hlen, if_pos hz]
        norm_num
      · rcases hmain (not_le.mp hlen) hz with ⟨h0, h1⟩
        exact ⟨h0, le_of_lt h1⟩

/-- Witness for the amended C4: period 14 with a 2-value series gives the
neutral 50, and on a 16-value alternating series the average loss is
nonzero and the result lies in [0, 100). -/
theorem rsi_spec_witness :
    ((1:ℕ) ≤ 14 ∧ ([(1:ℚ), 2]).length ≤ 14 ∧ Scan.rsi [1, 2] 14 = 50) ∧
    (14 < ([(1:ℚ), 2, 1, 2, 1, 2, 1, 2, 1, 2, 1, 2, 1, 2, 1, 2]).length ∧
      (Scan.rsiAvgs [1, 2, 1, 2, 1, 2, 1, 2, 1, 2, 1, 2, 1, 2, 1, 2] 14).2 ≠ 0 ∧
      0 ≤ Scan.rsi [1, 2, 1, 2, 1, 2, 1, 2, 1, 2, 1, 2, 1, 2, 1, 2] 14 ∧
      Scan.rsi [1, 2, 1, 2, 1, 2, 1, 2, 1, 2, 1, 2, 1, 2, 1, 2] 14 < 100) :=
  ⟨⟨by norm_num, by norm_num, (rsi_spec [1, 2] 14 (by norm_num)).1 (by norm_num)⟩,
    ⟨by norm_num, by
      norm_num [Scan.rsiAvgs, Scan.deltas, Scan.initGL, Scan.wilderStep],
      (rsi_spec [1, 2, 1, 2, 1, 2, 1, 2, 1, 2, 1, 2, 1, 2, 1, 2] 14 (by norm_num)).2.2.1
        (by norm_num)
        (by norm_num [Scan.rsiAvgs, Scan.deltas, Scan.initGL, Scan.wilderStep])⟩⟩

namespace Scan

/-- Simple returns of a close series (indicators.ts lines 74-77): entry i
is (closes[i+1] − closes[i]) / closes[i]. -/
def returnsOf (closes : List ℚ) : List ℚ :=
  closes.tail.zipWith (fun a b => (a - b) / b) closes

/-- The mean used by `standardDeviation` (indicators.ts line 66); on the
empty list the source divides by zero (see jsDiv and meanO below for the
checked model of that degeneracy). -/
def mean (values : List ℚ) : ℚ := values.sum / values.length

/-- Population variance (indicators.ts lines 67-68): divide by N, not N−1. -/
def variance (values : List ℚ) : ℚ :=
  (values.map (fun v => (v - mean values) ^ 2)).sum / values.length

/-- Embedding of `standardDeviation` (indicators.ts lines 65-70). -/
noncomputable def standardDeviation (values : List ℚ) : ℝ :=
  Real.sqrt (variance values)

/-- Embedding of `volatilityPercent` (indicators.ts lines 72-79): standard
deviation of the simple returns, scaled by sqrt of the number of returns,
as a percentage; fewer than 2 closes yields 0. -/
noncomputable def volatilityPercent (closes : List ℚ) : ℝ :=
  if closes.length < 2 then 0
  else standardDeviation (returnsOf closes) *
    Real.sqrt ((returnsOf closes).length) * 100

/-- JavaScript division with the zero-divisor degeneracy made explicit: in
the source a zero divisor produces a non-finite number (NaN or ±Infinity),
modelled here as `none`. -/
def jsDiv (a b : ℚ) : Option ℚ := if b = 0 then none else some (a / b)

/-- The mean computation of `standardDeviation` with the division by the
(possibly zero) length checked. -/
def meanO (values : List ℚ) : Option ℚ := jsDiv values.sum values.length

/-- The variance computation of `standardDeviation` with both divisions by
the length checked. -/
def varianceO (values : List ℚ) : Option ℚ :=
  (meanO values).bind fun m =>
    jsDiv ((values.map (fun v => (v - m) ^ 2)).sum) values.length

/-- Checked model of `standardDeviation`: `none` exactly when the source
computes a non-finite number through division by a zero length. -/
noncomputable def standardDeviationO (values : List ℚ) : Option ℝ :=
  (varianceO values).map (fun q => Real.sqrt q)

theorem returnsOf_cons_cons (a b : ℚ) (t : List ℚ) :
    returnsOf (a :: b :: t) = (b - a) / a :: returnsOf (b :: t) := rfl

theorem returnsOf_map_mul (c : ℚ) (hc : c ≠ 0) :
    ∀ closes : List ℚ, (∀ x ∈ closes, x ≠ 0) →
      returnsOf (closes.map (fun x => c * x)) = returnsOf closes
  | [], _ => rfl
  | [_], _ => rfl
  | a :: b :: t, h => by
    have ha : a ≠ 0 := h a (by simp)
    have htail := returnsOf_map_mul c hc (b :: t)
      (fun x hx => h x (List.mem_cons_of_mem a hx))
    simp only [List.map_cons] at htail ⊢
    rw [returnsOf_cons_cons, returnsOf_cons_cons, htail, ← mul_sub,
      mul_div_mul_left _ _ hc]

end Scan

/-- C8: volatilityPercent returns 0 for every input with fewer than 2
closes, and it is scale-invariant: for every close series with at least 2
entries, all positive, and every positive constant c, the pointwise-scaled
series c·closes has the same volatility, because the simple returns are
unchanged by uniform scaling. -/
theorem volatilityPercent_spec :
    (∀ closes : List ℚ, closes.length < 2 → Scan.volatilityPercent closes = 0) ∧
    (∀ (closes : List ℚ) (c : ℚ), 2 ≤ closes.length → (∀ x ∈ closes, 0 < x) →
      0 < c →
      Scan.volatilityPercent (closes.map (fun x => c * x)) =
        Scan.volatilityPercent closes) := by
  constructor
  · intro closes h
    simp [Scan.volatilityPercent, h]
  · intro closes c hlen hpos hc
    have hret : Scan.returnsOf (closes.map (fun x => c * x)) =
        Scan.returnsOf closes :=
      Scan.returnsOf_map_mul c (ne_of_gt hc) closes
        (fun x hx => ne_of_gt (hpos x hx))
    simp only [Scan.volatilityPercent, List.length_map, hret]

/-- Witness for C8: the singleton series has volatility 0, and doubling the
two-point series [1, 2] leaves the volatility unchanged. -/
theorem volatilityPercent_spec_witness :
    (([(7:ℚ)]).length < 2 ∧ Scan.volatilityPercent [7] = 0) ∧
    ((2 ≤ ([(1:ℚ), 2]).length ∧ (∀ x ∈ [(1:ℚ), 2], 0 < x) ∧ (0:ℚ) < 2) ∧
      Scan.volatilityPercent ([(1:ℚ), 2].map (fun x => 2 * x)) =
        Scan.volatilityPercent [1, 2]) := by
  have hpos : ∀ x ∈ [(1:ℚ), 2], 0 < x := by
    intro x hx
    rcases List.mem_cons.mp hx with rfl | hx
    · norm_num
    · rcases List.mem_cons.mp hx with rfl | hx
      · norm_num
      · simp at hx
  exact ⟨⟨by norm_num, volatilityPercent_spec.1 [7] (by norm_num)⟩,
    ⟨⟨by norm_num, hpos, by norm_num⟩,
      volatilityPercent_spec.2 [1, 2] 2 (by norm_num) hpos (by norm_num)⟩⟩

/-- C10: standardDeviation on the empty list divides by zero (length 0) in
its mean, so the checked model returns no finite number; on every non-empty
list it agrees with the total model and is a non-negative (finite) real;
and the fewer-than-2-closes guard of volatilityPercent guarantees the
returns list it passes to standardDeviation is non-empty, so the degenerate
branch is unreachable through the engine's only internal caller. -/
theorem standardDeviation_spec :
    Scan.standardDeviationO [] = none ∧
    (∀ values : List ℚ, values ≠ [] →
      Scan.standardDeviationO values = some (Scan.standardDeviation values) ∧
      0 ≤ Scan.standardDeviation values) ∧
    (∀ closes : List ℚ, ¬ closes.length < 2 → Scan.returnsOf closes ≠ []) := by
  refine ⟨?_, ?_, ?_⟩
  · simp [Scan.standardDeviationO, Scan.varianceO, Scan.meanO, Scan.jsDiv]
  · intro values hne
    have hlen : (values.length : ℚ) ≠ 0 := by
      simpa using List.length_pos.mpr hne |>.ne'
    refine ⟨?_, Real.sqrt_nonneg _⟩
    simp [Scan.standardDeviationO, Scan.varianceO, Scan.meanO, Scan.jsDiv,
      Scan.standardDeviation, Scan.variance, Scan.mean, hlen]
  · intro closes hlong hcon
    have hlen : (Scan.returnsOf closes).length = 0 := by
      rw [hcon]
      rfl
    have : (Scan.returnsOf closes).length = closes.length - 1 := by
      simp only [Scan.returnsOf, List.length_zipWith, List.length_tail]
      omega
    omega

/-- Witness for C10: the singleton list [1] has a defined, non-negative
checked standard deviation, and the two-point close series [1, 2] passes a
non-empty returns list onward. -/
theorem standardDeviation_spec_witness :
    (([(1:ℚ)] : List ℚ) ≠ [] ∧
      Scan.standardDeviationO [1] = some (Scan.standardDeviation [1]) ∧
      0 ≤ Scan.standardDeviation [1]) ∧
    (¬ ([(1:ℚ), 2]).length < 2 ∧ Scan.returnsOf [1, 2] ≠ []) := by
  have h1 : ([(1:ℚ)] : List ℚ) ≠ [] := by simp
  have h2 : ¬ ([(1:ℚ), 2]).length < 2 := by norm_num
  exact ⟨⟨h1, standardDeviation_spec.2.1 [1] h1⟩,
    ⟨h2, standardDeviation_spec.2.2 [1, 2] h2⟩⟩
